import Mathlib

/-!
A model of `dataset_builder` (src/dataset_builder/src/main.rs): a batch tool
that filters a CSV of candidate repositories, clones them, runs a fixed
battery of external analyzers against each repository directory, and
serializes one JSON record per repository to a line-delimited output file.

External effects are modelled explicitly:
* the outcome of spawning one external process is a `World` oracle mapping an
  `Invocation` (working directory, executable, argument vector) to either an
  invocation error or a `ProcOutput`;
* wall-clock durations are a `Dur` oracle;
* directory enumeration and file-system walks are given as input lists.
-/

/-- Captured outcome of a process that did spawn and run to completion:
exit status plus the text written to the two standard streams. -/
structure ProcOutput where
  exitCode : Int
  stdout : String
  stderr : String
deriving DecidableEq, Repr

/-- One attempted external process invocation: working directory, executable
name and argument vector. -/
structure Invocation where
  dir : String
  cmd : String
  args : List String
deriving DecidableEq, Repr

/-- Oracle for the environment: what happens when an invocation is attempted.
`Except.error` models the spawn itself failing (missing binary, permission
denied), i.e. `std::process::Command::output()` returning `Err`. -/
def World : Type := Invocation → Except String ProcOutput

/-- Oracle for the monotonic clock: elapsed milliseconds measured around one
invocation (`Instant::now()` / `start.elapsed().as_millis()`). -/
def Dur : Type := Invocation → Nat

/-- `runCmd` (main.rs:161-168): run `cargo` with the given argument vector in
`dir` and return the captured stdout when non-empty, falling back to the
captured stderr; the exit status is never inspected.  (The Rust passes
`args[0]` then `args[1..]`, i.e. the whole vector; all call sites pass a
non-empty vector.) -/
def runCmd (w : World) (dir : String) (args : List String) : Except String String :=
  match w { dir := dir, cmd := "cargo", args := args } with
  | .error e => .error e
  | .ok out => .ok (if !out.stdout.isEmpty then out.stdout else out.stderr)

/-- `runExtCmd` (main.rs:170-176): same as `runCmd` but with an explicit
executable name. -/
def runExtCmd (w : World) (dir cmd : String) (args : List String) : Except String String :=
  match w { dir := dir, cmd := cmd, args := args } with
  | .error e => .error e
  | .ok out => .ok (if !out.stdout.isEmpty then out.stdout else out.stderr)

/-- `sanitize` (main.rs:218-220): `name.replace('/', "_")` — the pattern is a
single character, so the replacement is a per-character map. -/
def sanitize (name : String) : String :=
  String.mk (name.data.map fun c => if c == '/' then '_' else c)

/-- Fetch options as configured in `clone_repos`: `FetchOptions::new()` with
`depth(1)` and a credentials callback producing
`Cred::userpass_plaintext("x-access-token", token)`. -/
structure FetchOpts where
  depth : Nat
  credential : Option (String × String)
deriving DecidableEq, Repr

/-- One clone performed by `clone_repos`: the URL, the destination directory,
and the fetch options actually passed to the clone call; `none` means the
clone ran with the library's defaults (a full clone, no injected
credential). -/
structure CloneAction where
  url : String
  dest : String
  opts : Option FetchOpts
deriving DecidableEq, Repr

/-- `clone_repos` (main.rs:95-108): for each name, build the destination
`out_root/dataset_<sanitize name>`, configure `FetchOptions` with depth 1 and
a token credential callback into a local, and then call
`Repository::clone(url, dest)` — which takes no options argument, so the
configured `FetchOptions` value is dropped unused and the clone runs with
default options. -/
def clone_repos (names : List String) (out_root token : String) : List CloneAction :=
  names.map fun name =>
    let dest := out_root ++ "/" ++ "dataset_" ++ sanitize name
    let _fo : FetchOpts := { depth := 1, credential := some ("x-access-token", token) }
    { url := "https://github.com/" ++ name ++ ".git", dest := dest, opts := none }

/-- One data record of the filter input, as deserialized by `filter_csv` into
`(String, String, bool, bool)`.  The csv reader is built with default
settings, so the file's first line is consumed as a header row; the records
seen by the loop are the rows after it. -/
structure CsvRow where
  id : String
  name : String
  has_toml : Bool
  has_lock : Bool
deriving DecidableEq, Repr

/-- `filter_csv` (main.rs:83-93): write `name` for each record whose two flags
are both true. -/
def filter_csv : List CsvRow → List String
  | [] => []
  | r :: rest =>
    if r.has_toml && r.has_lock then r.name :: filter_csv rest
    else filter_csv rest

/-- Per-analyzer elapsed milliseconds (`Times`, main.rs:50-62); field order is
the struct's declaration order, which fixes the serialization order of the
`time_ms` sub-record. -/
structure Times where
  clippy : Nat
  fmt : Nat
  audit : Nat
  auditable : Nat
  deny : Nat
  semgrep : Nat
  geiger : Nat
  codeql : Nat
  tree : Nat
  ast : Nat
deriving DecidableEq, Repr

/-- One repository's aggregate record (`OutputEntry`, main.rs:34-48); field
order is the struct's declaration order, which fixes the serialization
order. -/
structure OutputEntry where
  name : String
  clippy : String
  fmt : String
  audit : String
  auditable : String
  deny : String
  semgrep : String
  geiger : String
  codeql : String
  tree : String
  ast : String
  time_ms : Times
deriving DecidableEq, Repr

/-- The invocation each analyzer slot performs, from the call sites in
`analyze_repo` (main.rs:134-143). -/
def clippyInv (path : String) : Invocation :=
  { dir := path, cmd := "cargo", args := ["clippy", "--message-format=json"] }

def fmtInv (path : String) : Invocation :=
  { dir := path, cmd := "cargo", args := ["fmt", "--", "--check"] }

def auditInv (path : String) : Invocation :=
  { dir := path, cmd := "cargo", args := ["audit"] }

def auditableInv (path : String) : Invocation :=
  { dir := path, cmd := "cargo", args := ["auditable"] }

def denyInv (path : String) : Invocation :=
  { dir := path, cmd := "cargo", args := ["deny", "check"] }

def geigerInv (path : String) : Invocation :=
  { dir := path, cmd := "cargo", args := ["geiger"] }

def treeInv (path : String) : Invocation :=
  { dir := path, cmd := "cargo", args := ["tree"] }

def astInv (path : String) : Invocation :=
  { dir := path, cmd := "rustc", args := ["--emit=ast", "-Z", "unpretty=ast"] }

def semgrepInv (path : String) : Invocation :=
  { dir := path, cmd := "semgrep", args := ["--config", "p/rust", "--json"] }

def codeqlInv (path : String) : Invocation :=
  { dir := path, cmd := "codeql", args := ["database", "analyze", "--format=json"] }

/-- The ten invocations in the order `analyze_repo`'s body executes them
(main.rs:134-143), each tagged with its slot name. -/
def execTrace (path : String) : List (String × Invocation) :=
  [("clippy", clippyInv path), ("fmt", fmtInv path), ("audit", auditInv path),
   ("auditable", auditableInv path), ("deny", denyInv path), ("geiger", geigerInv path),
   ("tree", treeInv path), ("ast", astInv path), ("semgrep", semgrepInv path),
   ("codeql", codeqlInv path)]

/-- `analyze_repo` (main.rs:123-159).  Each `measure!($field, $func?)` call
expands to: start the clock, evaluate the runner call, propagate an
invocation error with `?` — note this happens before `times.$field` is
assigned — and otherwise store the elapsed time into `times.$field` and keep
the captured text.  The second component is the trace of invocations actually
attempted, in execution order; on an invocation error the function returns
the error and the trace stops at the failing slot. -/
def analyze_repo (w : World) (dur : Dur) (path name : String) :
    Except String OutputEntry × List (String × Invocation) :=
  match runCmd w path ["clippy", "--message-format=json"] with
  | .error e => (.error e, (execTrace path).take 1)
  | .ok clippy =>
  let t_clippy := dur (clippyInv path)
  match runCmd w path ["fmt", "--", "--check"] with
  | .error e => (.error e, (execTrace path).take 2)
  | .ok fmt =>
  let t_fmt := dur (fmtInv path)
  match runCmd w path ["audit"] with
  | .error e => (.error e, (execTrace path).take 3)
  | .ok audit =>
  let t_audit := dur (auditInv path)
  match runCmd w path ["auditable"] with
  | .error e => (.error e, (execTrace path).take 4)
  | .ok auditable =>
  let t_auditable := dur (auditableInv path)
  match runCmd w path ["deny", "check"] with
  | .error e => (.error e, (execTrace path).take 5)
  | .ok deny =>
  let t_deny := dur (denyInv path)
  match runCmd w path ["geiger"] with
  | .error e => (.error e, (execTrace path).take 6)
  | .ok geiger =>
  let t_geiger := dur (geigerInv path)
  match runExtCmd w path "cargo" ["tree"] with
  | .error e => (.error e, (execTrace path).take 7)
  | .ok tree =>
  let t_tree := dur (treeInv path)
  match runExtCmd w path "rustc" ["--emit=ast", "-Z", "unpretty=ast"] with
  | .error e => (.error e, (execTrace path).take 8)
  | .ok ast =>
  let t_ast := dur (astInv path)
  match runExtCmd w path "semgrep" ["--config", "p/rust", "--json"] with
  | .error e => (.error e, (execTrace path).take 9)
  | .ok semgrep =>
  let t_semgrep := dur (semgrepInv path)
  match runExtCmd w path "codeql" ["database", "analyze", "--format=json"] with
  | .error e => (.error e, (execTrace path).take 10)
  | .ok codeql =>
  let t_codeql := dur (codeqlInv path)
  (.ok { name := name, clippy := clippy, fmt := fmt, audit := audit,
         auditable := auditable, deny := deny, semgrep := semgrep,
         geiger := geiger, codeql := codeql, tree := tree, ast := ast,
         time_ms := { clippy := t_clippy, fmt := t_fmt, audit := t_audit,
                      auditable := t_auditable, deny := t_deny,
                      semgrep := t_semgrep, geiger := t_geiger,
                      codeql := t_codeql, tree := t_tree, ast := t_ast } },
   execTrace path)

/-- Minimal JSON value type for the serialized records; `serde_json` writes a
struct as an object whose fields appear in declaration order. -/
inductive Json where
  | str : String → Json
  | num : Nat → Json
  | obj : List (String × Json) → Json

/-- Serialization of `Times` in field declaration order. -/
def encodeTimes (t : Times) : Json :=
  .obj [("clippy", .num t.clippy), ("fmt", .num t.fmt), ("audit", .num t.audit),
        ("auditable", .num t.auditable), ("deny", .num t.deny),
        ("semgrep", .num t.semgrep), ("geiger", .num t.geiger),
        ("codeql", .num t.codeql), ("tree", .num t.tree), ("ast", .num t.ast)]

/-- Serialization of `OutputEntry` in field declaration order. -/
def encodeEntry (e : OutputEntry) : Json :=
  .obj [("name", .str e.name), ("clippy", .str e.clippy), ("fmt", .str e.fmt),
        ("audit", .str e.audit), ("auditable", .str e.auditable),
        ("deny", .str e.deny), ("semgrep", .str e.semgrep),
        ("geiger", .str e.geiger), ("codeql", .str e.codeql),
        ("tree", .str e.tree), ("ast", .str e.ast),
        ("time_ms", encodeTimes e.time_ms)]

def Json.fields : Json → List (String × Json)
  | .obj fs => fs
  | _ => []

def Json.isStr : Json → Bool
  | .str _ => true
  | _ => false

def Json.isNum : Json → Bool
  | .num _ => true
  | _ => false

/-- Names of a record's analyzer-text fields: its top-level string fields
other than the repository name, in serialized order. -/
def textFieldNames (j : Json) : List String :=
  (j.fields.filter fun f => f.2.isStr && f.1 != "name").map Prod.fst

/-- Number of analyzer-text fields in a record. -/
def textFieldCount (j : Json) : Nat :=
  (textFieldNames j).length

/-- Number of elapsed-milliseconds fields in a record's `time_ms`
sub-record. -/
def timeFieldCount (j : Json) : Nat :=
  match j.fields.lookup "time_ms" with
  | some t => ((t.fields.filter fun f => f.2.isNum)).length
  | none => 0

/-- One entry yielded by `fs::read_dir(root)`: the entry's file name and
whether its path is a directory. -/
structure DirEntry where
  name : String
  isDir : Bool
deriving DecidableEq, Repr

/-- `run_outputs` (main.rs:110-121): iterate the root's entries in enumeration
order; an enumeration error aborts (`entry?`); non-directories are skipped;
each directory is analyzed and its serialized record appended to the output
before the next entry is processed; an error from `analyze_repo` aborts
(`?`), keeping the lines already written.  Returns the output lines and the
run's final result. -/
def run_outputs (w : World) (dur : Dur) (root : String) :
    List (Except String DirEntry) → List Json × Except String Unit
  | [] => ([], .ok ())
  | .error e :: _ => ([], .error e)
  | .ok d :: rest =>
    if !d.isDir then run_outputs w dur root rest
    else
      match analyze_repo w dur (root ++ "/" ++ d.name) d.name with
      | (.error e, _) => ([], .error e)
      | (.ok entry, _) =>
        (encodeEntry entry :: (run_outputs w dur root rest).1,
         (run_outputs w dur root rest).2)

/-- Number of entries in a `read_dir` listing that are directories. -/
def countDirs : List (Except String DirEntry) → Nat
  | [] => 0
  | .error _ :: rest => countDirs rest
  | .ok d :: rest => (if d.isDir then 1 else 0) + countDirs rest

/-- `p.starts_with(repo_path.join(d))` for a path `p` given by its components
relative to the repository root: the first component equals `d`. -/
def startsWithDir (rel : List String) (d : String) : Bool :=
  match rel with
  | c :: _ => c == d
  | [] => false

/-- One entry yielded by the `ignore` crate's walk of the repository (with
`standard_filters(true)`, so ignore-rule-excluded files never appear):
the path's components relative to the repository root, whether it is a
regular file, and `some s` exactly when `fs::read_to_string` succeeds with
`s` (i.e. the file is text-readable). -/
structure WalkEntry where
  rel : List String
  isFile : Bool
  content : Option String
deriving DecidableEq, Repr

/-- `CodeEntry` (main.rs:64-69). -/
structure CodeEntry where
  name : String
  path : String
  content : String
deriving DecidableEq, Repr

/-- `collect_code` (main.rs:193-216): walk results are filtered to `Ok`
entries (`filter_map(Result::ok)`), then to regular files, then to paths not
under `target`, `.idea` or `.vscode`; each remaining file that reads as text
yields one `CodeEntry` whose path is relative to the repository root
(`strip_prefix`), and a file whose read fails is skipped. -/
def collect_code : List (Except String WalkEntry) → List CodeEntry
  | [] => []
  | .error _ :: rest => collect_code rest
  | .ok e :: rest =>
    if e.isFile
        && !(startsWithDir e.rel "target")
        && !(startsWithDir e.rel ".idea")
        && !(startsWithDir e.rel ".vscode") then
      match e.content with
      | some c =>
        { name := "", path := String.intercalate "/" e.rel, content := c } :: collect_code rest
      | none => collect_code rest
    else collect_code rest

/-- The runners' output-selection policy: captured stdout when non-empty,
captured stderr otherwise. -/
def pickOut (o : ProcOutput) : String :=
  if !o.stdout.isEmpty then o.stdout else o.stderr

/-- A process outcome used by concrete environments: exit 0, stdout "out". -/
def okOut : ProcOutput :=
  { exitCode := 0, stdout := "out", stderr := "" }

/-- An environment where every external process spawns and exits 0 writing
"out" to stdout. -/
def wAllOk : World := fun _ => .ok okOut

/-- An environment where every external process spawns but exits non-zero
with empty stdout and "warnings" on stderr. -/
def wNonzero : World := fun _ =>
  .ok { exitCode := 1, stdout := "", stderr := "warnings" }

/-- An environment where the `semgrep` binary is missing (its spawn fails)
and every other invocation succeeds. -/
def wNoSemgrep : World := fun i =>
  if i.cmd == "semgrep" then .error "No such file or directory (os error 2)"
  else .ok okOut

/-- An environment where the very first invocation (`cargo clippy`) fails to
spawn and every other invocation succeeds. -/
def wNoClippy : World := fun i =>
  if i.args == ["clippy", "--message-format=json"] then .error "spawn failed"
  else .ok okOut

/-- An environment where `cargo deny` (the fifth registered slot) fails to
spawn and every other invocation succeeds. -/
def wNoDeny : World := fun i =>
  if i.args == ["deny", "check"] then .error "deny missing"
  else .ok okOut

/-- An environment where the `codeql` binary (the tenth registered slot) is
missing and every other invocation succeeds. -/
def wNoCodeql : World := fun i =>
  if i.cmd == "codeql" then .error "codeql missing"
  else .ok okOut

/-- A clock oracle measuring five milliseconds around every invocation. -/
def durFive : Dur := fun _ => 5

/-- The report `analyze_repo` produces under `wAllOk` and `durFive`. -/
def entryAllOk (name : String) : OutputEntry :=
  { name := name, clippy := "out", fmt := "out", audit := "out", auditable := "out",
    deny := "out", semgrep := "out", geiger := "out", codeql := "out", tree := "out",
    ast := "out",
    time_ms := { clippy := 5, fmt := 5, audit := 5, auditable := 5, deny := 5,
                 semgrep := 5, geiger := 5, codeql := 5, tree := 5, ast := 5 } }

theorem runCmd_ok (w : World) (dir : String) (args : List String) (o : ProcOutput)
    (h : w { dir := dir, cmd := "cargo", args := args } = .ok o) :
    runCmd w dir args = .ok (pickOut o) := by
  simp [runCmd, pickOut, h]

theorem runExtCmd_ok (w : World) (dir cmd : String) (args : List String) (o : ProcOutput)
    (h : w { dir := dir, cmd := cmd, args := args } = .ok o) :
    runExtCmd w dir cmd args = .ok (pickOut o) := by
  simp [runExtCmd, pickOut, h]

/-- When all ten invocations spawn, `analyze_repo` runs all of them and
returns the complete report: each text slot holds that invocation's selected
output and each timing slot holds that invocation's measured duration. -/
theorem analyze_repo_complete (w : World) (dur : Dur) (path name : String)
    (o1 o2 o3 o4 o5 o6 o7 o8 o9 o10 : ProcOutput)
    (h1 : w (clippyInv path) = .ok o1) (h2 : w (fmtInv path) = .ok o2)
    (h3 : w (auditInv path) = .ok o3) (h4 : w (auditableInv path) = .ok o4)
    (h5 : w (denyInv path) = .ok o5) (h6 : w (geigerInv path) = .ok o6)
    (h7 : w (treeInv path) = .ok o7) (h8 : w (astInv path) = .ok o8)
    (h9 : w (semgrepInv path) = .ok o9) (h10 : w (codeqlInv path) = .ok o10) :
    analyze_repo w dur path name =
      (.ok { name := name, clippy := pickOut o1, fmt := pickOut o2, audit := pickOut o3,
             auditable := pickOut o4, deny := pickOut o5, semgrep := pickOut o9,
             geiger := pickOut o6, codeql := pickOut o10, tree := pickOut o7,
             ast := pickOut o8,
             time_ms := { clippy := dur (clippyInv path), fmt := dur (fmtInv path),
                          audit := dur (auditInv path), auditable := dur (auditableInv path),
                          deny := dur (denyInv path), semgrep := dur (semgrepInv path),
                          geiger := dur (geigerInv path), codeql := dur (codeqlInv path),
                          tree := dur (treeInv path), ast := dur (astInv path) } },
       execTrace path) := by
  simp only [clippyInv, fmtInv, auditInv, auditableInv, denyInv, geigerInv, treeInv,
    astInv, semgrepInv, codeqlInv] at h1 h2 h3 h4 h5 h6 h7 h8 h9 h10
  simp [analyze_repo, runCmd, runExtCmd, pickOut, clippyInv, fmtInv, auditInv,
    auditableInv, denyInv, geigerInv, treeInv, astInv, semgrepInv, codeqlInv,
    h1, h2, h3, h4, h5, h6, h7, h8, h9, h10]

/-- A directory entry whose analysis fails makes `run_outputs` abort at that
entry. -/
theorem run_outputs_abort (w : World) (dur : Dur) (root : String) (d : DirEntry)
    (rest : List (Except String DirEntry)) (e : String)
    (hd : d.isDir = true)
    (he : (analyze_repo w dur (root ++ "/" ++ d.name) d.name).1 = .error e) :
    run_outputs w dur root (.ok d :: rest) = ([], .error e) := by
  cases ha : analyze_repo w dur (root ++ "/" ++ d.name) d.name with
  | mk r tr =>
    rw [ha] at he
    simp only at he
    subst he
    simp [run_outputs, hd, ha]

theorem encodeEntry_textFieldCount (e : OutputEntry) :
    textFieldCount (encodeEntry e) = 10 := rfl

theorem encodeEntry_timeFieldCount (e : OutputEntry) :
    timeFieldCount (encodeEntry e) = 10 := rfl

/-- Counterexample to C1: in an environment where only the `semgrep` binary
is missing, `analyze_repo` does not run the remaining registered analyzer
(`codeql` is never attempted — the trace stops after nine slots) and returns
an invocation error instead of a `RepositoryReport`; the batch driver then
aborts, producing a report for no repository at all rather than for all other
repositories. -/
theorem c1_counterexample :
    analyze_repo wNoSemgrep durFive "root/a" "a"
        = (.error "No such file or directory (os error 2)", (execTrace "root/a").take 9)
    ∧ run_outputs wNoSemgrep durFive "root"
          [.ok { name := "a", isDir := true }, .ok { name := "b", isDir := true }]
        = ([], .error "No such file or directory (os error 2)") :=
  ⟨rfl, rfl⟩

/-- C1 as amended: only non-zero exits are tolerated.  Whichever of the ten
registered analyzer slots is the first whose invocation signals an invocation
error, the Per-Repository Analyzer stops at that slot — the analyzers
registered after it are not attempted (the trace ends at the failing slot) —
and propagates the error instead of returning a report; the Batch Driver then
aborts at that repository, producing no lines for it or the repositories
after it; when every analyzer spawns, a complete report is produced whatever
the exit statuses. -/
theorem c1_invocation_error_aborts :
    (∀ (w : World) (dur : Dur) (path name : String) (e : String),
      w (clippyInv path) = .error e →
      analyze_repo w dur path name = (.error e, (execTrace path).take 1))
    ∧ (∀ (w : World) (dur : Dur) (path name : String)
        (o1 : ProcOutput) (e : String),
      w (clippyInv path) = .ok o1 →
      w (fmtInv path) = .error e →
      analyze_repo w dur path name = (.error e, (execTrace path).take 2))
    ∧ (∀ (w : World) (dur : Dur) (path name : String)
        (o1 o2 : ProcOutput) (e : String),
      w (clippyInv path) = .ok o1 →
      w (fmtInv path) = .ok o2 →
      w (auditInv path) = .error e →
      analyze_repo w dur path name = (.error e, (execTrace path).take 3))
    ∧ (∀ (w : World) (dur : Dur) (path name : String)
        (o1 o2 o3 : ProcOutput) (e : String),
      w (clippyInv path) = .ok o1 →
      w (fmtInv path) = .ok o2 →
      w (auditInv path) = .ok o3 →
      w (auditableInv path) = .error e →
      analyze_repo w dur path name = (.error e, (execTrace path).take 4))
    ∧ (∀ (w : World) (dur : Dur) (path name : String)
        (o1 o2 o3 o4 : ProcOutput) (e : String),
      w (clippyInv path) = .ok o1 →
      w (fmtInv path) = .ok o2 →
      w (auditInv path) = .ok o3 →
      w (auditableInv path) = .ok o4 →
      w (denyInv path) = .error e →
      analyze_repo w dur path name = (.error e, (execTrace path).take 5))
    ∧ (∀ (w : World) (dur : Dur) (path name : String)
        (o1 o2 o3 o4 o5 : ProcOutput) (e : String),
      w (clippyInv path) = .ok o1 →
      w (fmtInv path) = .ok o2 →
      w (auditInv path) = .ok o3 →
      w (auditableInv path) = .ok o4 →
      w (denyInv path) = .ok o5 →
      w (geigerInv path) = .error e →
      analyze_repo w dur path name = (.error e, (execTrace path).take 6))
    ∧ (∀ (w : World) (dur : Dur) (path name : String)
        (o1 o2 o3 o4 o5 o6 : ProcOutput) (e : String),
      w (clippyInv path) = .ok o1 →
      w (fmtInv path) = .ok o2 →
      w (auditInv path) = .ok o3 →
      w (auditableInv path) = .ok o4 →
      w (denyInv path) = .ok o5 →
      w (geigerInv path) = .ok o6 →
      w (treeInv path) = .error e →
      analyze_repo w dur path name = (.error e, (execTrace path).take 7))
    ∧ (∀ (w : World) (dur : Dur) (path name : String)
        (o1 o2 o3 o4 o5 o6 o7 : ProcOutput) (e : String),
      w (clippyInv path) = .ok o1 →
      w (fmtInv path) = .ok o2 →
      w (auditInv path) = .ok o3 →
      w (auditableInv path) = .ok o4 →
      w (denyInv path) = .ok o5 →
      w (geigerInv path) = .ok o6 →
      w (treeInv path) = .ok o7 →
      w (astInv path) = .error e →
      analyze_repo w dur path name = (.error e, (execTrace path).take 8))
    ∧ (∀ (w : World) (dur : Dur) (path name : String)
        (o1 o2 o3 o4 o5 o6 o7 o8 : ProcOutput) (e : String),
      w (clippyInv path) = .ok o1 →
      w (fmtInv path) = .ok o2 →
      w (auditInv path) = .ok o3 →
      w (auditableInv path) = .ok o4 →
      w (denyInv path) = .ok o5 →
      w (geigerInv path) = .ok o6 →
      w (treeInv path) = .ok o7 →
      w (astInv path) = .ok o8 →
      w (semgrepInv path) = .error e →
      analyze_repo w dur path name = (.error e, (execTrace path).take 9))
    ∧ (∀ (w : World) (dur : Dur) (path name : String)
        (o1 o2 o3 o4 o5 o6 o7 o8 o9 : ProcOutput) (e : String),
      w (clippyInv path) = .ok o1 →
      w (fmtInv path) = .ok o2 →
      w (auditInv path) = .ok o3 →
      w (auditableInv path) = .ok o4 →
      w (denyInv path) = .ok o5 →
      w (geigerInv path) = .ok o6 →
      w (treeInv path) = .ok o7 →
      w (astInv path) = .ok o8 →
      w (semgrepInv path) = .ok o9 →
      w (codeqlInv path) = .error e →
      analyze_repo w dur path name = (.error e, (execTrace path).take 10))
    ∧ (∀ (w : World) (dur : Dur) (root : String) (d : DirEntry)
        (rest : List (Except String DirEntry)) (e : String),
      d.isDir = true →
      (analyze_repo w dur (root ++ "/" ++ d.name) d.name).1 = .error e →
      run_outputs w dur root (.ok d :: rest) = ([], .error e))
    ∧ (∀ (w : World) (dur : Dur) (path name : String)
        (o1 o2 o3 o4 o5 o6 o7 o8 o9 o10 : ProcOutput),
      w (clippyInv path) = .ok o1 → w (fmtInv path) = .ok o2 →
      w (auditInv path) = .ok o3 → w (auditableInv path) = .ok o4 →
      w (denyInv path) = .ok o5 → w (geigerInv path) = .ok o6 →
      w (treeInv path) = .ok o7 → w (astInv path) = .ok o8 →
      w (semgrepInv path) = .ok o9 → w (codeqlInv path) = .ok o10 →
      ∃ entry, analyze_repo w dur path name = (.ok entry, execTrace path)) := by
  refine ⟨?_, ?_, ?_, ?_, ?_, ?_, ?_, ?_, ?_, ?_, ?_, ?_⟩
  · intro w dur path name e he
    simp only [clippyInv] at he
    simp [analyze_repo, runCmd, runExtCmd, he]
  · intro w dur path name o1 e h1 he
    simp only [clippyInv, fmtInv] at h1 he
    simp [analyze_repo, runCmd, runExtCmd, h1, he]
  · intro w dur path name o1 o2 e h1 h2 he
    simp only [clippyInv, fmtInv, auditInv] at h1 h2 he
    simp [analyze_repo, runCmd, runExtCmd, h1, h2, he]
  · intro w dur path name o1 o2 o3 e h1 h2 h3 he
    simp only [clippyInv, fmtInv, auditInv, auditableInv] at h1 h2 h3 he
    simp [analyze_repo, runCmd, runExtCmd, h1, h2, h3, he]
  · intro w dur path name o1 o2 o3 o4 e h1 h2 h3 h4 he
    simp only [clippyInv, fmtInv, auditInv, auditableInv, denyInv] at h1 h2 h3 h4 he
    simp [analyze_repo, runCmd, runExtCmd, h1, h2, h3, h4, he]
  · intro w dur path name o1 o2 o3 o4 o5 e h1 h2 h3 h4 h5 he
    simp only [clippyInv, fmtInv, auditInv, auditableInv, denyInv, geigerInv] at h1 h2 h3 h4 h5 he
    simp [analyze_repo, runCmd, runExtCmd, h1, h2, h3, h4, h5, he]
  · intro w dur path name o1 o2 o3 o4 o5 o6 e h1 h2 h3 h4 h5 h6 he
    simp only [clippyInv, fmtInv, auditInv, auditableInv, denyInv, geigerInv, treeInv] at h1 h2 h3 h4 h5 h6 he
    simp [analyze_repo, runCmd, runExtCmd, h1, h2, h3, h4, h5, h6, he]
  · intro w dur path name o1 o2 o3 o4 o5 o6 o7 e h1 h2 h3 h4 h5 h6 h7 he
    simp only [clippyInv, fmtInv, auditInv, auditableInv, denyInv, geigerInv, treeInv, astInv] at h1 h2 h3 h4 h5 h6 h7 he
    simp [analyze_repo, runCmd, runExtCmd, h1, h2, h3, h4, h5, h6, h7, he]
  · intro w dur path name o1 o2 o3 o4 o5 o6 o7 o8 e h1 h2 h3 h4 h5 h6 h7 h8 he
    simp only [clippyInv, fmtInv, auditInv, auditableInv, denyInv, geigerInv, treeInv, astInv, semgrepInv] at h1 h2 h3 h4 h5 h6 h7 h8 he
    simp [analyze_repo, runCmd, runExtCmd, h1, h2, h3, h4, h5, h6, h7, h8, he]
  · intro w dur path name o1 o2 o3 o4 o5 o6 o7 o8 o9 e h1 h2 h3 h4 h5 h6 h7 h8 h9 he
    simp only [clippyInv, fmtInv, auditInv, auditableInv, denyInv, geigerInv, treeInv, astInv, semgrepInv, codeqlInv] at h1 h2 h3 h4 h5 h6 h7 h8 h9 he
    simp [analyze_repo, runCmd, runExtCmd, h1, h2, h3, h4, h5, h6, h7, h8, h9, he]
  · intro w dur root d rest e hd he
    exact run_outputs_abort w dur root d rest e hd he
  · intro w dur path name o1 o2 o3 o4 o5 o6 o7 o8 o9 o10 h1 h2 h3 h4 h5 h6 h7 h8 h9 h10
    exact ⟨_, analyze_repo_complete w dur path name o1 o2 o3 o4 o5 o6 o7 o8 o9 o10
      h1 h2 h3 h4 h5 h6 h7 h8 h9 h10⟩

/-- Witness for the amended C1, exercising failures at the first, fifth and
tenth registered slots, the batch abort, and the all-spawn completion. -/
theorem c1_invocation_error_aborts_witness :
    analyze_repo wNoClippy durFive "p1" "n"
        = (.error "spawn failed", (execTrace "p1").take 1)
    ∧ analyze_repo wNoDeny durFive "p2" "n"
        = (.error "deny missing", (execTrace "p2").take 5)
    ∧ analyze_repo wNoCodeql durFive "p3" "n"
        = (.error "codeql missing", (execTrace "p3").take 10)
    ∧ run_outputs wNoSemgrep durFive "root" [.ok { name := "b", isDir := true }]
        = ([], .error "No such file or directory (os error 2)")
    ∧ ∃ entry, analyze_repo wAllOk durFive "p" "n" = (.ok entry, execTrace "p") :=
  ⟨c1_invocation_error_aborts.1 wNoClippy durFive "p1" "n" _ rfl,
   c1_invocation_error_aborts.2.2.2.2.1 wNoDeny durFive "p2" "n"
      okOut okOut okOut okOut _ rfl rfl rfl rfl rfl,
   c1_invocation_error_aborts.2.2.2.2.2.2.2.2.2.1 wNoCodeql durFive "p3" "n"
      okOut okOut okOut okOut okOut okOut okOut okOut okOut _
      rfl rfl rfl rfl rfl rfl rfl rfl rfl rfl,
   c1_invocation_error_aborts.2.2.2.2.2.2.2.2.2.2.1 wNoSemgrep durFive "root" { name := "b", isDir := true }
      [] _ rfl rfl,
   c1_invocation_error_aborts.2.2.2.2.2.2.2.2.2.2.2 wAllOk durFive "p" "n"
      okOut okOut okOut okOut okOut okOut okOut okOut okOut okOut
      rfl rfl rfl rfl rfl rfl rfl rfl rfl rfl⟩

/-- Counterexample to C2: when the first analyzer's invocation errors out
immediately (spawn failure), `analyze_repo` returns the bare error — the
value propagated contains no elapsed-milliseconds record at all.  In the
`measure!` expansion the `?` operator returns before `times.$field` is
assigned, so the measured duration (here 5 ms under `durFive`) is discarded
rather than recorded. -/
theorem c2_counterexample :
    analyze_repo wNoClippy durFive "root/a" "a"
      = (.error "spawn failed", (execTrace "root/a").take 1) :=
  rfl

/-- C2 as amended: a slot's elapsed-milliseconds value is recorded and
propagated only when that slot's invocation completes.  When every invocation
spawns, the returned report's timing record maps each slot to the measured
duration of that slot's invocation (a natural number, hence non-negative);
and whichever of the ten registered slots is the first whose invocation
signals an invocation error, the measured duration is discarded — the `?` in
the `measure!` expansion returns before `times.$field` is assigned — and the
error is propagated instead of any report or timing record. -/
theorem c2_timing_only_on_completion :
    (∀ (w : World) (dur : Dur) (path name : String)
        (o1 o2 o3 o4 o5 o6 o7 o8 o9 o10 : ProcOutput),
      w (clippyInv path) = .ok o1 → w (fmtInv path) = .ok o2 →
      w (auditInv path) = .ok o3 → w (auditableInv path) = .ok o4 →
      w (denyInv path) = .ok o5 → w (geigerInv path) = .ok o6 →
      w (treeInv path) = .ok o7 → w (astInv path) = .ok o8 →
      w (semgrepInv path) = .ok o9 → w (codeqlInv path) = .ok o10 →
      (analyze_repo w dur path name).1.map OutputEntry.time_ms
        = .ok { clippy := dur (clippyInv path), fmt := dur (fmtInv path),
                audit := dur (auditInv path), auditable := dur (auditableInv path),
                deny := dur (denyInv path), semgrep := dur (semgrepInv path),
                geiger := dur (geigerInv path), codeql := dur (codeqlInv path),
                tree := dur (treeInv path), ast := dur (astInv path) })
    ∧ (∀ (w : World) (dur : Dur) (path name : String) (e : String),
      w (clippyInv path) = .error e →
      (analyze_repo w dur path name).1 = .error e)
    ∧ (∀ (w : World) (dur : Dur) (path name : String)
        (o1 : ProcOutput) (e : String),
      w (clippyInv path) = .ok o1 →
      w (fmtInv path) = .error e →
      (analyze_repo w dur path name).1 = .error e)
    ∧ (∀ (w : World) (dur : Dur) (path name : String)
        (o1 o2 : ProcOutput) (e : String),
      w (clippyInv path) = .ok o1 →
      w (fmtInv path) = .ok o2 →
      w (auditInv path) = .error e →
      (analyze_repo w dur path name).1 = .error e)
    ∧ (∀ (w : World) (dur : Dur) (path name : String)
        (o1 o2 o3 : ProcOutput) (e : String),
      w (clippyInv path) = .ok o1 →
      w (fmtInv path) = .ok o2 →
      w (auditInv path) = .ok o3 →
      w (auditableInv path) = .error e →
      (analyze_repo w dur path name).1 = .error e)
    ∧ (∀ (w : World) (dur : Dur) (path name : String)
        (o1 o2 o3 o4 : ProcOutput) (e : String),
      w (clippyInv path) = .ok o1 →
      w (fmtInv path) = .ok o2 →
      w (auditInv path) = .ok o3 →
      w (auditableInv path) = .ok o4 →
      w (denyInv path) = .error e →
      (analyze_repo w dur path name).1 = .error e)
    ∧ (∀ (w : World) (dur : Dur) (path name : String)
        (o1 o2 o3 o4 o5 : ProcOutput) (e : String),
      w (clippyInv path) = .ok o1 →
      w (fmtInv path) = .ok o2 →
      w (auditInv path) = .ok o3 →
      w (auditableInv path) = .ok o4 →
      w (denyInv path) = .ok o5 →
      w (geigerInv path) = .error e →
      (analyze_repo w dur path name).1 = .error e)
    ∧ (∀ (w : World) (dur : Dur) (path name : String)
        (o1 o2 o3 o4 o5 o6 : ProcOutput) (e : String),
      w (clippyInv path) = .ok o1 →
      w (fmtInv path) = .ok o2 →
      w (auditInv path) = .ok o3 →
      w (auditableInv path) = .ok o4 →
      w (denyInv path) = .ok o5 →
      w (geigerInv path) = .ok o6 →
      w (treeInv path) = .error e →
      (analyze_repo w dur path name).1 = .error e)
    ∧ (∀ (w : World) (dur : Dur) (path name : String)
        (o1 o2 o3 o4 o5 o6 o7 : ProcOutput) (e : String),
      w (clippyInv path) = .ok o1 →
      w (fmtInv path) = .ok o2 →
      w (auditInv path) = .ok o3 →
      w (auditableInv path) = .ok o4 →
      w (denyInv path) = .ok o5 →
      w (geigerInv path) = .ok o6 →
      w (treeInv path) = .ok o7 →
      w (astInv path) = .error e →
      (analyze_repo w dur path name).1 = .error e)
    ∧ (∀ (w : World) (dur : Dur) (path name : String)
        (o1 o2 o3 o4 o5 o6 o7 o8 : ProcOutput) (e : String),
      w (clippyInv path) = .ok o1 →
      w (fmtInv path) = .ok o2 →
      w (auditInv path) = .ok o3 →
      w (auditableInv path) = .ok o4 →
      w (denyInv path) = .ok o5 →
      w (geigerInv path) = .ok o6 →
      w (treeInv path) = .ok o7 →
      w (astInv path) = .ok o8 →
      w (semgrepInv path) = .error e →
      (analyze_repo w dur path name).1 = .error e)
    ∧ (∀ (w : World) (dur : Dur) (path name : String)
        (o1 o2 o3 o4 o5 o6 o7 o8 o9 : ProcOutput) (e : String),
      w (clippyInv path) = .ok o1 →
      w (fmtInv path) = .ok o2 →
      w (auditInv path) = .ok o3 →
      w (auditableInv path) = .ok o4 →
      w (denyInv path) = .ok o5 →
      w (geigerInv path) = .ok o6 →
      w (treeInv path) = .ok o7 →
      w (astInv path) = .ok o8 →
      w (semgrepInv path) = .ok o9 →
      w (codeqlInv path) = .error e →
      (analyze_repo w dur path name).1 = .error e) := by
  refine ⟨?_, ?_, ?_, ?_, ?_, ?_, ?_, ?_, ?_, ?_, ?_⟩
  · intro w dur path name o1 o2 o3 o4 o5 o6 o7 o8 o9 o10 h1 h2 h3 h4 h5 h6 h7 h8 h9 h10
    rw [analyze_repo_complete w dur path name o1 o2 o3 o4 o5 o6 o7 o8 o9 o10
      h1 h2 h3 h4 h5 h6 h7 h8 h9 h10]
    rfl
  · intro w dur path name e he
    simp only [clippyInv] at he
    simp [analyze_repo, runCmd, runExtCmd, he]
  · intro w dur path name o1 e h1 he
    simp only [clippyInv, fmtInv] at h1 he
    simp [analyze_repo, runCmd, runExtCmd, h1, he]
  · intro w dur path name o1 o2 e h1 h2 he
    simp only [clippyInv, fmtInv, auditInv] at h1 h2 he
    simp [analyze_repo, runCmd, runExtCmd, h1, h2, he]
  · intro w dur path name o1 o2 o3 e h1 h2 h3 he
    simp only [clippyInv, fmtInv, auditInv, auditableInv] at h1 h2 h3 he
    simp [analyze_repo, runCmd, runExtCmd, h1, h2, h3, he]
  · intro w dur path name o1 o2 o3 o4 e h1 h2 h3 h4 he
    simp only [clippyInv, fmtInv, auditInv, auditableInv, denyInv] at h1 h2 h3 h4 he
    simp [analyze_repo, runCmd, runExtCmd, h1, h2, h3, h4, he]
  · intro w dur path name o1 o2 o3 o4 o5 e h1 h2 h3 h4 h5 he
    simp only [clippyInv, fmtInv, auditInv, auditableInv, denyInv, geigerInv] at h1 h2 h3 h4 h5 he
    simp [analyze_repo, runCmd, runExtCmd, h1, h2, h3, h4, h5, he]
  · intro w dur path name o1 o2 o3 o4 o5 o6 e h1 h2 h3 h4 h5 h6 he
    simp only [clippyInv, fmtInv, auditInv, auditableInv, denyInv, geigerInv, treeInv] at h1 h2 h3 h4 h5 h6 he
    simp [analyze_repo, runCmd, runExtCmd, h1, h2, h3, h4, h5, h6, he]
  · intro w dur path name o1 o2 o3 o4 o5 o6 o7 e h1 h2 h3 h4 h5 h6 h7 he
    simp only [clippyInv, fmtInv, auditInv, auditableInv, denyInv, geigerInv, treeInv, astInv] at h1 h2 h3 h4 h5 h6 h7 he
    simp [analyze_repo, runCmd, runExtCmd, h1, h2, h3, h4, h5, h6, h7, he]
  · intro w dur path name o1 o2 o3 o4 o5 o6 o7 o8 e h1 h2 h3 h4 h5 h6 h7 h8 he
    simp only [clippyInv, fmtInv, auditInv, auditableInv, denyInv, geigerInv, treeInv, astInv, semgrepInv] at h1 h2 h3 h4 h5 h6 h7 h8 he
    simp [analyze_repo, runCmd, runExtCmd, h1, h2, h3, h4, h5, h6, h7, h8, he]
  · intro w dur path name o1 o2 o3 o4 o5 o6 o7 o8 o9 e h1 h2 h3 h4 h5 h6 h7 h8 h9 he
    simp only [clippyInv, fmtInv, auditInv, auditableInv, denyInv, geigerInv, treeInv, astInv, semgrepInv, codeqlInv] at h1 h2 h3 h4 h5 h6 h7 h8 h9 he
    simp [analyze_repo, runCmd, runExtCmd, h1, h2, h3, h4, h5, h6, h7, h8, h9, he]

/-- Witness for the amended C2: full timing record under an all-spawn
environment, and no timing propagated when the first or the ninth slot's
invocation errors. -/
theorem c2_timing_only_on_completion_witness :
    (analyze_repo wAllOk durFive "p" "n").1.map OutputEntry.time_ms
      = .ok { clippy := durFive (clippyInv "p"), fmt := durFive (fmtInv "p"),
              audit := durFive (auditInv "p"), auditable := durFive (auditableInv "p"),
              deny := durFive (denyInv "p"), semgrep := durFive (semgrepInv "p"),
              geiger := durFive (geigerInv "p"), codeql := durFive (codeqlInv "p"),
              tree := durFive (treeInv "p"), ast := durFive (astInv "p") }
    ∧ (analyze_repo wNoClippy durFive "q" "n").1 = .error "spawn failed"
    ∧ (analyze_repo wNoSemgrep durFive "q2" "n").1
        = .error "No such file or directory (os error 2)" :=
  ⟨c2_timing_only_on_completion.1 wAllOk durFive "p" "n"
      okOut okOut okOut okOut okOut okOut okOut okOut okOut okOut
      rfl rfl rfl rfl rfl rfl rfl rfl rfl rfl,
   c2_timing_only_on_completion.2.1 wNoClippy durFive "q" "n" _ rfl,
   c2_timing_only_on_completion.2.2.2.2.2.2.2.2.2.1 wNoSemgrep durFive "q2" "n"
      okOut okOut okOut okOut okOut okOut okOut okOut _
      rfl rfl rfl rfl rfl rfl rfl rfl rfl⟩

/-- Counterexample to C6: under an environment where every analyzer succeeds,
the produced report is `entryAllOk "a"`, but the execution order recorded by
the trace (`geiger`, `tree`, `ast`, `semgrep`, `codeql` after `deny`) is not
the order of the per-analyzer fields in that report's serialization
(`semgrep`, `geiger`, `codeql`, `tree`, `ast` after `deny`). -/
theorem c6_counterexample :
    (analyze_repo wAllOk durFive "root/a" "a").1 = .ok (entryAllOk "a")
    ∧ (analyze_repo wAllOk durFive "root/a" "a").2.map Prod.fst
        = ["clippy", "fmt", "audit", "auditable", "deny",
           "geiger", "tree", "ast", "semgrep", "codeql"]
    ∧ textFieldNames (encodeEntry (entryAllOk "a"))
        = ["clippy", "fmt", "audit", "auditable", "deny",
           "semgrep", "geiger", "codeql", "tree", "ast"]
    ∧ (analyze_repo wAllOk durFive "root/a" "a").2.map Prod.fst
        ≠ textFieldNames (encodeEntry (entryAllOk "a")) := by
  refine ⟨rfl, rfl, rfl, ?_⟩
  decide

/-- C6 as amended: the execution order is deterministic and fixed by the code
(clippy, fmt, audit, auditable, deny, geiger, tree, ast, semgrep, codeql),
and the serialized record's analyzer field order is also fixed (clippy, fmt,
audit, auditable, deny, semgrep, geiger, codeql, tree, ast), but the two
orders differ in the last five slots: execution order is not the record's
field layout order. -/
theorem c6_fixed_but_different_orders :
    (∀ (w : World) (dur : Dur) (path name : String)
        (o1 o2 o3 o4 o5 o6 o7 o8 o9 o10 : ProcOutput),
      w (clippyInv path) = .ok o1 → w (fmtInv path) = .ok o2 →
      w (auditInv path) = .ok o3 → w (auditableInv path) = .ok o4 →
      w (denyInv path) = .ok o5 → w (geigerInv path) = .ok o6 →
      w (treeInv path) = .ok o7 → w (astInv path) = .ok o8 →
      w (semgrepInv path) = .ok o9 → w (codeqlInv path) = .ok o10 →
      (analyze_repo w dur path name).2.map Prod.fst
        = ["clippy", "fmt", "audit", "auditable", "deny",
           "geiger", "tree", "ast", "semgrep", "codeql"])
    ∧ (∀ e : OutputEntry, textFieldNames (encodeEntry e)
        = ["clippy", "fmt", "audit", "auditable", "deny",
           "semgrep", "geiger", "codeql", "tree", "ast"])
    ∧ (["clippy", "fmt", "audit", "auditable", "deny",
        "geiger", "tree", "ast", "semgrep", "codeql"] : List String)
        ≠ ["clippy", "fmt", "audit", "auditable", "deny",
           "semgrep", "geiger", "codeql", "tree", "ast"] := by
  refine ⟨?_, fun e => rfl, by decide⟩
  intro w dur path name o1 o2 o3 o4 o5 o6 o7 o8 o9 o10 h1 h2 h3 h4 h5 h6 h7 h8 h9 h10
  rw [analyze_repo_complete w dur path name o1 o2 o3 o4 o5 o6 o7 o8 o9 o10
    h1 h2 h3 h4 h5 h6 h7 h8 h9 h10]
  rfl

/-- Witness for the amended C6, at a concrete environment. -/
theorem c6_fixed_but_different_orders_witness :
    (analyze_repo wAllOk durFive "p" "n").2.map Prod.fst
      = ["clippy", "fmt", "audit", "auditable", "deny",
         "geiger", "tree", "ast", "semgrep", "codeql"] :=
  c6_fixed_but_different_orders.1 wAllOk durFive "p" "n"
    okOut okOut okOut okOut okOut okOut okOut okOut okOut okOut
    rfl rfl rfl rfl rfl rfl rfl rfl rfl rfl

/-- C4: a completed run (one whose final result is `Except.ok`) over a root
listing with M directory entries emits exactly M output lines, and every
emitted line carries exactly 10 analyzer-text fields and exactly 10
elapsed-milliseconds fields (one per registered analyzer), however many
analyzers exited non-zero. -/
theorem c4_completed_run_shape (w : World) (dur : Dur) (root : String)
    (entries : List (Except String DirEntry)) (lines : List Json)
    (h : run_outputs w dur root entries = (lines, .ok ())) :
    lines.length = countDirs entries
    ∧ ∀ l ∈ lines, textFieldCount l = 10 ∧ timeFieldCount l = 10 := by
  induction entries generalizing lines with
  | nil =>
    simp only [run_outputs, Prod.mk.injEq] at h
    obtain ⟨h1, -⟩ := h
    subst h1
    simp [countDirs]
  | cons x rest ih =>
    cases x with
    | error e => simp [run_outputs] at h
    | ok d =>
      cases hd : d.isDir with
      | false =>
        simp only [run_outputs, hd, Bool.not_false, if_pos] at h
        have := ih lines h
        simpa [countDirs, hd] using this
      | true =>
        cases ha : analyze_repo w dur (root ++ "/" ++ d.name) d.name with
        | mk r tr =>
          cases r with
          | error e => simp [run_outputs, hd, ha] at h
          | ok entry =>
            simp only [run_outputs, hd, ha, Bool.not_true, if_neg, Bool.false_eq_true,
              not_false_iff, Prod.mk.injEq] at h
            obtain ⟨h1, h2⟩ := h
            subst h1
            have hrest : run_outputs w dur root rest = ((run_outputs w dur root rest).1, .ok ()) := by
              rw [← h2]
            have := ih (run_outputs w dur root rest).1 hrest
            refine ⟨by simp [countDirs, hd, this.1]; omega, ?_⟩
            intro l hl
            rcases List.mem_cons.mp hl with hh | ht
            · subst hh
              exact ⟨encodeEntry_textFieldCount entry, encodeEntry_timeFieldCount entry⟩
            · exact this.2 l ht

/-- Witness for C4: a completed three-entry run (two repositories, one plain
file, every analyzer exiting non-zero) emits two lines of the full shape. -/
theorem c4_completed_run_shape_witness :
    ((run_outputs wNonzero durFive "r"
        [.ok { name := "a", isDir := true }, .ok { name := "f.txt", isDir := false },
         .ok { name := "b", isDir := true }]).1).length
      = countDirs [.ok { name := "a", isDir := true }, .ok { name := "f.txt", isDir := false },
         .ok { name := "b", isDir := true }]
    ∧ ∀ l ∈ (run_outputs wNonzero durFive "r"
        [.ok { name := "a", isDir := true }, .ok { name := "f.txt", isDir := false },
         .ok { name := "b", isDir := true }]).1,
        textFieldCount l = 10 ∧ timeFieldCount l = 10 :=
  c4_completed_run_shape wNonzero durFive "r"
    [.ok { name := "a", isDir := true }, .ok { name := "f.txt", isDir := false },
     .ok { name := "b", isDir := true }]
    (run_outputs wNonzero durFive "r"
      [.ok { name := "a", isDir := true }, .ok { name := "f.txt", isDir := false },
       .ok { name := "b", isDir := true }]).1 rfl

/-- C5: the batch driver visits the enumeration in order — a non-directory
entry contributes no output line; a directory entry's serialized report is
prepended to whatever the remaining entries produce, i.e. appended to the
stream before the next entry is processed; and the lines of a completed
listing segment come before, and are unchanged by, the lines of the entries
after it. -/
theorem c5_batch_in_enumeration_order (w : World) (dur : Dur) (root : String) :
    (∀ (d : DirEntry) (rest : List (Except String DirEntry)), d.isDir = false →
      run_outputs w dur root (.ok d :: rest) = run_outputs w dur root rest)
    ∧ (∀ (d : DirEntry) (rest : List (Except String DirEntry)) (entry : OutputEntry)
        (tr : List (String × Invocation)), d.isDir = true →
      analyze_repo w dur (root ++ "/" ++ d.name) d.name = (.ok entry, tr) →
      run_outputs w dur root (.ok d :: rest)
        = (encodeEntry entry :: (run_outputs w dur root rest).1,
           (run_outputs w dur root rest).2))
    ∧ (∀ (es1 es2 : List (Except String DirEntry)) (lines1 : List Json),
      run_outputs w dur root es1 = (lines1, .ok ()) →
      (run_outputs w dur root (es1 ++ es2)).1
        = lines1 ++ (run_outputs w dur root es2).1) := by
  refine ⟨?_, ?_, ?_⟩
  · intro d rest hd
    simp [run_outputs, hd]
  · intro d rest entry tr hd ha
    simp [run_outputs, hd, ha]
  · intro es1 es2 lines1 h
    induction es1 generalizing lines1 with
    | nil =>
      simp only [run_outputs, Prod.mk.injEq] at h
      obtain ⟨h1, -⟩ := h
      subst h1
      simp
    | cons x rest ih =>
      cases x with
      | error e => simp [run_outputs] at h
      | ok d =>
        cases hd : d.isDir with
        | false =>
          simp only [run_outputs, hd, Bool.not_false, if_pos] at h
          simpa [run_outputs, hd] using ih lines1 h
        | true =>
          cases ha : analyze_repo w dur (root ++ "/" ++ d.name) d.name with
          | mk r tr =>
            cases r with
            | error e => simp [run_outputs, hd, ha] at h
            | ok entry =>
              simp only [run_outputs, hd, ha, Bool.not_true, Bool.false_eq_true,
                not_false_iff, if_neg, Prod.mk.injEq] at h
              obtain ⟨h1, h2⟩ := h
              subst h1
              have hrest : run_outputs w dur root rest = ((run_outputs w dur root rest).1, .ok ()) := by
                rw [← h2]
              simp [run_outputs, hd, ha, ih (run_outputs w dur root rest).1 hrest]

/-- Witness for C5, at a concrete environment: a non-directory entry emits
nothing, a directory entry's record is appended before the rest is
processed, and a completed segment's lines stand unchanged before the next
segment's lines. -/
theorem c5_batch_in_enumeration_order_witness :
    run_outputs wAllOk durFive "r" [.ok { name := "n", isDir := false }]
        = run_outputs wAllOk durFive "r" []
    ∧ run_outputs wAllOk durFive "r"
          (.ok { name := "a", isDir := true } :: [.ok { name := "b", isDir := true }])
        = (encodeEntry (entryAllOk "a")
             :: (run_outputs wAllOk durFive "r" [.ok { name := "b", isDir := true }]).1,
           (run_outputs wAllOk durFive "r" [.ok { name := "b", isDir := true }]).2)
    ∧ (run_outputs wAllOk durFive "r"
          ([.ok { name := "a", isDir := true }] ++ [.ok { name := "b", isDir := true }])).1
        = (run_outputs wAllOk durFive "r" [.ok { name := "a", isDir := true }]).1
          ++ (run_outputs wAllOk durFive "r" [.ok { name := "b", isDir := true }]).1 :=
  ⟨(c5_batch_in_enumeration_order wAllOk durFive "r").1 { name := "n", isDir := false } [] rfl,
   (c5_batch_in_enumeration_order wAllOk durFive "r").2.1 { name := "a", isDir := true }
      [.ok { name := "b", isDir := true }] (entryAllOk "a") (execTrace ("r" ++ "/" ++ "a")) rfl rfl,
   (c5_batch_in_enumeration_order wAllOk durFive "r").2.2
      [.ok { name := "a", isDir := true }] [.ok { name := "b", isDir := true }]
      (run_outputs wAllOk durFive "r" [.ok { name := "a", isDir := true }]).1 rfl⟩

/-- C9: the collector emits exactly one `CodeEntry` per walked regular file
that is text-readable and not under `target`, `.idea` or `.vscode` — the
output is the in-order map of exactly those walk entries, each with its path
relative to the repository root and its text content; the second conjunct is
the spec's scenario (`src/main.ext` kept, `target/build.bin` excluded). -/
theorem c9_collect_one_entry_per_kept_file :
    (∀ walk : List (Except String WalkEntry),
      collect_code walk
        = ((walk.filterMap Except.toOption).filter (fun e =>
              e.isFile && !(startsWithDir e.rel "target") && !(startsWithDir e.rel ".idea")
                && !(startsWithDir e.rel ".vscode") && e.content.isSome)).map
            (fun e => { name := "", path := String.intercalate "/" e.rel,
                        content := e.content.getD "" }))
    ∧ collect_code
        [.ok { rel := ["src", "main.ext"], isFile := true, content := some "fn main" },
         .ok { rel := ["target", "build.bin"], isFile := true, content := some "bin" }]
        = [{ name := "", path := "src/main.ext", content := "fn main" }] := by
  constructor
  · intro walk
    induction walk with
    | nil => rfl
    | cons x rest ih =>
      cases x with
      | error s => simpa [collect_code] using ih
      | ok e =>
        cases hf : (e.isFile && !(startsWithDir e.rel "target") && !(startsWithDir e.rel ".idea")
            && !(startsWithDir e.rel ".vscode")) with
        | false =>
          simp only [collect_code, hf, Bool.false_eq_true, if_neg, not_false_iff]
          simpa [List.filterMap_cons, List.filter_cons, Except.toOption, hf] using ih
        | true =>
          cases hc : e.content with
          | none =>
            simp only [collect_code, hf, if_pos, hc]
            simpa [List.filterMap_cons, List.filter_cons, Except.toOption, hf, hc] using ih
          | some c =>
            simp only [collect_code, hf, if_pos, hc]
            simpa [List.filterMap_cons, List.filter_cons, Except.toOption, hf, hc] using ih
  · decide

/-- C10: a walked file whose read fails (`read_to_string` returns `Err`, i.e.
the entry's content is `none`) is silently skipped: it contributes no
`CodeEntry`, and the entries collected from the files before and after it are
exactly those of the walk without it — the collection itself never fails. -/
theorem c10_unreadable_file_skipped (xs ys : List (Except String WalkEntry))
    (e : WalkEntry) (h : e.content = none) :
    collect_code (xs ++ .ok e :: ys) = collect_code (xs ++ ys) := by
  induction xs with
  | nil =>
    simp only [List.nil_append]
    cases hf : (e.isFile && !(startsWithDir e.rel "target") && !(startsWithDir e.rel ".idea")
        && !(startsWithDir e.rel ".vscode")) with
    | false => simp [collect_code, hf]
    | true => simp [collect_code, hf, h]
  | cons x rest ih =>
    cases x with
    | error s => simpa [collect_code] using ih
    | ok a =>
      cases hf : (a.isFile && !(startsWithDir a.rel "target") && !(startsWithDir a.rel ".idea")
          && !(startsWithDir a.rel ".vscode")) with
      | false => simpa [collect_code, hf] using ih
      | true =>
        cases hc : a.content with
        | none => simpa [collect_code, hf, hc] using ih
        | some c => simpa [collect_code, hf, hc] using ih

/-- Witness for C10: an unreadable binary blob between two readable files
contributes nothing and leaves the other files' collection unchanged. -/
theorem c10_unreadable_file_skipped_witness :
    collect_code
        ([.ok { rel := ["a.ext"], isFile := true, content := some "aa" }]
          ++ .ok { rel := ["blob.bin"], isFile := true, content := none }
          :: [.ok { rel := ["b.ext"], isFile := true, content := some "bb" }])
      = collect_code
          ([.ok { rel := ["a.ext"], isFile := true, content := some "aa" }]
            ++ [.ok { rel := ["b.ext"], isFile := true, content := some "bb" }]) :=
  c10_unreadable_file_skipped
    [.ok { rel := ["a.ext"], isFile := true, content := some "aa" }]
    [.ok { rel := ["b.ext"], isFile := true, content := some "bb" }]
    { rel := ["blob.bin"], isFile := true, content := none } rfl
/-- C3: if the external process spawns and runs to completion — whatever its
exit status — `runCmd` and `runExtCmd` return `Except.ok` with the
captured stdout when non-empty and the captured stderr otherwise; a non-zero
exit code never makes the runner itself fail (the result does not depend on
`exitCode` at all). -/
theorem c3_runner_ok_on_any_exit (w : World) (dir cmd : String) (args : List String)
    (o : ProcOutput) :
    (w { dir := dir, cmd := "cargo", args := args } = .ok o →
      runCmd w dir args = .ok (if !o.stdout.isEmpty then o.stdout else o.stderr))
    ∧ (w { dir := dir, cmd := cmd, args := args } = .ok o →
      runExtCmd w dir cmd args = .ok (if !o.stdout.isEmpty then o.stdout else o.stderr)) := by
  constructor
  · intro h
    simp [runCmd, h]
  · intro h
    simp [runExtCmd, h]

/-- Witness for C3: a process exiting with status 101, empty stdout and
stderr "boom" makes the runner succeed with "boom". -/
theorem c3_runner_ok_on_any_exit_witness :
    runCmd (fun _ => .ok { exitCode := 101, stdout := "", stderr := "boom" }) "d" ["audit"]
      = .ok "boom" := by
  have h := (c3_runner_ok_on_any_exit
      (fun _ => .ok { exitCode := 101, stdout := "", stderr := "boom" })
      "d" "x" ["audit"] { exitCode := 101, stdout := "", stderr := "boom" }).1 rfl
  simpa using h

/-- C7 (code evaluated at the failing input): cloning the single name
`org/repo` produces a clone of `https://github.com/org/repo.git` into the
deterministically sanitized subdirectory `out/dataset_org_repo`, but with
`opts := none`: the `FetchOptions` configured with depth 1 and the bearer
credential is never passed to the clone, so the clone is neither shallow nor
authenticated with the supplied token. -/
theorem c7_clone_drops_fetch_options :
    clone_repos ["org/repo"] "out" "tok"
      = [{ url := "https://github.com/org/repo.git",
           dest := "out/dataset_org_repo",
           opts := none }] := by
  decide

/-- C8: a record's name is written exactly when both flags are true — the
filter output is precisely the names of the records with both flags set, in
input order; a record with either flag false contributes no line.  The second
conjunct is the spec's scenario. -/
theorem c8_filter_keeps_both_flags :
    (∀ rows : List CsvRow,
      filter_csv rows = (rows.filter fun r => r.has_toml && r.has_lock).map CsvRow.name)
    ∧ filter_csv [⟨"1", "org/repo", true, true⟩, ⟨"2", "org/other", true, false⟩]
        = ["org/repo"] := by
  constructor
  · intro rows
    induction rows with
    | nil => rfl
    | cons r rest ih =>
      by_cases h : (r.has_toml && r.has_lock) = true
      · simp [filter_csv, h, ih]
      · simp [filter_csv, h, ih]
  · decide
